import Mathlib

/-
Verification of the woped/rag retrieval-augmented-generation support service.

This file gives a shallow embedding, in Lean 4, of the query-extraction and
retrieval-ranking pipeline of the repository:
  * LangchainClient.search_docs / delete_by_prefix
    (app/infrastructure/rag/langchain/LangchainClient.py),
  * RAGAdapter.retrieve / augment (app/infrastructure/rag/RAGAdapter.py),
  * RAGService.enrich_prompt (app/core/services/RAGService.py),
  * DatabaseService.delete_by_prefix (app/core/services/DatabaseService.py),
  * QueryExtractionService.extract_query / find_extractor / optimize_keywords
    (app/core/services/QueryExtractionService.py),
  * BpmnQueryExtractor (app/infrastructure/preprocessing/BpmnQueryExtractor.py),
  * PnmlQueryExtractor (app/infrastructure/preprocessing/PnmlQueryExtractor.py),
and proves or refutes the specified behavioural claims about them.

Modelling conventions:
  * Python strings are Lean String values; helper functions (pyStrip, pyLower,
    pyJoin, strContains, strStartsWith) re-implement the Python primitives
    str.strip, str.lower, str.join, the `in` operator and str.startswith over
    the character list of the string, so that every definition is executable
    by kernel reduction.
  * Python exceptions are modelled with Except: a function that can raise
    returns Except PyErr _; re-raising except blocks are the identity on the
    error component.
  * The external vector store (Chroma via similarity_search_with_score) is a
    parameter: a function from the query to the Except-wrapped candidate list.
    Distances are rationals (the float values of the embedding metric enter
    the claims only through order comparisons).
  * An XML diagram is a Diagram: the raw text (used by the can_process
    substring checks, exactly as in the source) together with the parsed,
    document-ordered element list (tag, name attribute, the text bodies of
    name children).  The three regex patterns of the BPMN extractor that
    match a tag by literal prefix are modelled as prefix tests on the
    lowercased tag, mirroring re.IGNORECASE; the unusual third pattern of
    extract_participants / extract_lanes (a name attribute followed by the
    word participant / lane inside the same tag) is carried as a boolean
    flag on the element.
-/

namespace WopedRag

/-- Python exception values, as far as the claims need to distinguish them. -/
inductive PyErr where
  | attributeError : PyErr
  | error : String → PyErr
deriving DecidableEq, Repr

/-- Python str.strip: drop whitespace from both ends. -/
def pyStrip (s : String) : String :=
  ⟨((s.data.dropWhile Char.isWhitespace).reverse.dropWhile Char.isWhitespace).reverse⟩

/-- Python str.lower. -/
def pyLower (s : String) : String :=
  ⟨s.data.map Char.toLower⟩

/-- Python sep.join(parts). -/
def pyJoin (sep : String) : List String → String
  | [] => ""
  | [x] => x
  | x :: y :: rest => x ++ sep ++ pyJoin sep (y :: rest)

/-- Python `sub in s` (substring containment) on character lists. -/
def listInfix (needle : List Char) : List Char → Bool
  | [] => needle.isEmpty
  | c :: rest => needle.isPrefixOf (c :: rest) || listInfix needle rest

/-- Python `sub in s` on strings. -/
def strContains (s sub : String) : Bool :=
  listInfix sub.data s.data

/-- Python s.startswith(pre). -/
def strStartsWith (s pre : String) : Bool :=
  pre.data.isPrefixOf s.data

/-- Python str.isdigit (ASCII digits; non-empty). -/
def pyIsDigit (s : String) : Bool :=
  !s.data.isEmpty && s.data.all Char.isDigit

/-- Python truthiness-respecting chain `a or b or ...` over optional strings:
first operand that is neither None nor empty. -/
def first_truthy : List (Option String) → Option String
  | [] => none
  | o :: rest =>
    match o with
    | some s => if s = "" then first_truthy rest else some s
    | none => first_truthy rest

/-- DocumentDTO (app/core/dtos/DocumentDTO.py): id, text, metadata. -/
structure Doc where
  id : String
  text : String
  metadata : List (String × String) := []
deriving DecidableEq, Repr

/-- A langchain Document as returned by similarity_search_with_score, with the
attributes search_docs reads from it (getattr falls back through these). -/
structure StoreDoc where
  id : Option String := none
  page_content : Option String := none
  text : Option String := none
  metaId : Option String := none
  metaText : Option String := none
  metadata : List (String × String) := []
deriving DecidableEq, Repr

/-- The DocumentDTO built inside LangchainClient.search_docs from a raw store
document: id_ = getattr(doc, id, None) or doc.metadata.get(id, None) or
"unknown"; text likewise with page_content, text, metadata text; metadata
defaults to the empty mapping. -/
def store_doc_to_dto (sd : StoreDoc) : Doc :=
  { id := (first_truthy [sd.id, sd.metaId]).getD "unknown"
    text := (first_truthy [sd.page_content, sd.text, sd.metaText]).getD ""
    metadata := sd.metadata }

/-- LangchainClient.search_docs, success path: keep, in order, the candidates
whose distance is strictly below the configured threshold (an int from the
environment), converting each kept document to a DocumentDTO. -/
def search_docs (threshold : ℤ) (results : List (StoreDoc × ℚ)) : List (Doc × ℚ) :=
  (results.filter (fun r => decide (r.2 < (threshold : ℚ)))).map
    (fun r => (store_doc_to_dto r.1, r.2))

/-- LangchainClient.search_docs including the exception path: the except block
logs and re-raises, so a store failure propagates unchanged. -/
def search_docs_run (threshold : ℤ) (storeResponse : Except PyErr (List (StoreDoc × ℚ))) :
    Except PyErr (List (Doc × ℚ)) :=
  match storeResponse with
  | .error e => .error e
  | .ok results => .ok (search_docs threshold results)

/-- RAGAdapter.retrieve: calls LangchainClient.search_docs on the query and
returns its result unchanged; no guard of any kind is applied to the query
before the store is consulted. -/
def retrieve (store : String → Except PyErr (List (StoreDoc × ℚ))) (threshold : ℤ)
    (query : String) : Except PyErr (List (Doc × ℚ)) :=
  search_docs_run threshold (store query)

/-- RAGService.enrich_prompt (app/core/services/RAGService.py): on any search
failure it returns the bare question; otherwise it joins the non-blank chunk
texts with blank lines and formats the hub prompt (modelled as a function of
question and context that may itself raise), again returning the bare question
on a formatting failure or when no message is produced. -/
def enrich_prompt (searchResult : Except PyErr (List (Doc × ℚ))) (question : String)
    (format_messages : String → String → Except PyErr (List String)) : String :=
  match searchResult with
  | .error _ => question
  | .ok results =>
    let docs := results.map (fun r => r.1)
    let context_text := pyJoin "\n\n" ((docs.map (fun d => d.text)).filter
      (fun t => !((pyStrip t).data.isEmpty)))
    match format_messages question context_text with
    | .error _ => question
    | .ok [] => question
    | .ok (m :: _) => m

/-- State (app/core/dtos/RagDTO.py) as RAGAdapter.augment reads it: the prompt
and the retrieved context; question, diagram and answer are carried along. -/
structure State where
  prompt : String
  question : String := ""
  diagram : String := ""
  context : List Doc := []
  answer : String := ""
deriving DecidableEq, Repr

/-- The context block of RAGAdapter.augment: each chunk rendered as a
1-indexed labelled block, blocks joined by a blank line; the empty string when
the context is empty (state.get("context") is falsy). -/
def augment_context_text (context : List Doc) : String :=
  if context = [] then ""
  else pyJoin "\n\n" (context.enum.map
    (fun p => "[Document " ++ toString (p.1 + 1) ++ "]\n" ++ p.2.text))

/-- A Python f-string renders the value None as the text None. -/
def py_render_opt (o : Option String) : String :=
  o.getD "None"

/-- RAGAdapter.augment: renders the context block, reads the additional
instruction from the environment (possibly absent) and fills the configured
template with prompt, instruction and context; if no template is configured,
or the template raises, the deterministic plain concatenation
prompt NL NL instruction NL NL Context: NL context is returned. -/
def augment (prompt_template : Option (String → String → String → Except PyErr String))
    (additional_llm_instruction : Option String) (state : State) : String :=
  let context_text := augment_context_text state.context
  let instr := py_render_opt additional_llm_instruction
  let fallback := state.prompt ++ "\n\n" ++ instr ++ "\n\nContext:\n" ++ context_text
  match prompt_template with
  | some tmpl =>
    match tmpl state.prompt instr context_text with
    | .ok enriched => enriched
    | .error _ => fallback
  | none => fallback

/-- LangchainClient.delete_by_prefix (and, line for line, also
PDFService.delete_old_docs_by_prefix): fetch every id in the collection,
keep those that start with the given plain string, and delete exactly the
documents carrying one of the kept ids (no delete call when none match). -/
def delete_by_prefix_client (pfx : String) (index : List Doc) : List Doc :=
  let all_ids := index.map (fun d => d.id)
  let ids_to_delete := all_ids.filter (fun i => strStartsWith i pfx)
  if ids_to_delete.isEmpty then index
  else index.filter (fun d => !(ids_to_delete.contains d.id))

/-- PDFService.delete_old_docs_by_prefix (app/core/services/PDFService.py),
the same algorithm repeated against the bare collection. -/
def delete_old_docs_by_prefix_pdf (pfx : String) (index : List Doc) : List Doc :=
  let all_ids := index.map (fun d => d.id)
  let ids_to_delete := all_ids.filter (fun i => strStartsWith i pfx)
  if ids_to_delete.isEmpty then index
  else index.filter (fun d => !(ids_to_delete.contains d.id))

/-- DatabaseService.delete_by_prefix: the argument may be None (the service is
called with arbitrary request input); `not prefix or not prefix.strip()` is
checked before the port is touched and raises ValueError("Prefix cannot be
empty"); only then is the client deletion run. -/
def delete_by_prefix_service (pfx : Option String) (index : List Doc) :
    Except String (List Doc) :=
  match pfx with
  | none => .error "Prefix cannot be empty"
  | some p =>
    if p = "" ∨ pyStrip p = "" then .error "Prefix cannot be empty"
    else .ok (delete_by_prefix_client p index)

/-- The stored collection after a call to DatabaseService.delete_by_prefix:
an exception raised by the validation leaves the index as it was. -/
def delete_by_prefix_service_run (pfx : Option String) (index : List Doc) : List Doc :=
  match delete_by_prefix_service pfx index with
  | .ok idx => idx
  | .error _ => index

/-- One XML element of a diagram, in document order: its tag as written
(namespace included, e.g. bpmn:userTask), the value of its name attribute if
present, and the stripped text bodies of text elements nested under its name
child (the PNML labelling idiom).  The two flags record whether the raw text
of the tag matches the third, attribute-order-reversed regex of
extract_participants resp. extract_lanes (a name attribute followed by the
word participant resp. lane before the closing bracket). -/
structure XmlElem where
  tag : String
  nameAttr : Option String := none
  nameTexts : List String := []
  name_before_participant : Bool := false
  name_before_lane : Bool := false
deriving DecidableEq, Repr

/-- A diagram: the raw XML text (inspected by the can_process substring
checks) together with its parsed element list in document order. -/
structure Diagram where
  raw : String
  elements : List XmlElem := []

/-- All name attribute values of elements whose tag matches the given pattern.
A regex of the shape open-bracket tag-prefix then attributes up to name
matches, case-insensitively, every element whose (lowercased) tag starts with
the pattern and that carries a name attribute; re.findall returns the captured
attribute values in document order. -/
def findall_name_attr (pat : String) (d : Diagram) : List String :=
  d.elements.filterMap (fun e =>
    if strStartsWith (pyLower e.tag) pat then e.nameAttr else none)

/-- The captures of the third participant pattern (name attribute written
before the word participant inside the tag). -/
def findall_participant_rev (d : Diagram) : List String :=
  d.elements.filterMap (fun e =>
    if e.name_before_participant then e.nameAttr else none)

/-- The captures of the third lane pattern. -/
def findall_lane_rev (d : Diagram) : List String :=
  d.elements.filterMap (fun e =>
    if e.name_before_lane then e.nameAttr else none)

/-- The for-else pattern loop of extract_participants / extract_lanes: the
first pattern whose findall result is non-empty wins; if every pattern comes
back empty the extractor returns the empty list. -/
def first_nonempty_list : List (List String) → List String
  | [] => []
  | l :: ls => if l.isEmpty then first_nonempty_list ls else l

/-- BpmnQueryExtractor.is_valid_name: non-empty, longer than one character,
not a pure digit string. -/
def is_valid_name (name : String) : Bool :=
  !name.data.isEmpty && decide (1 < name.data.length) && !pyIsDigit name

/-- The name normalisation applied to every regex capture: strip, lowercase. -/
def norm_name (s : String) : String :=
  pyLower (pyStrip s)

/-- The per-name post-processing shared by the BPMN extraction loops:
strip, lowercase, keep only valid names. -/
def process_names (raw : List String) : List String :=
  raw.filterMap (fun s =>
    let n := norm_name s
    if is_valid_name n then some n else none)

/-- BpmnQueryExtractor.extract_participants: three patterns tried in order,
first non-empty findall wins, then strip, lowercase and validity filtering. -/
def extract_participants (d : Diagram) : List String :=
  process_names (first_nonempty_list
    [findall_name_attr "bpmn:participant" d,
     findall_name_attr "participant" d,
     findall_participant_rev d])

/-- BpmnQueryExtractor.extract_lanes, same shape as extract_participants. -/
def extract_lanes (d : Diagram) : List String :=
  process_names (first_nonempty_list
    [findall_name_attr "bpmn:lane" d,
     findall_name_attr "lane" d,
     findall_lane_rev d])

/-- The eighteen activity patterns of BpmnQueryExtractor.extract_activities,
in source order, lowercased (the regexes carry re.IGNORECASE). -/
def activity_patterns : List String :=
  ["bpmn:task", "bpmn:usertask", "bpmn:servicetask", "bpmn:scripttask",
   "bpmn:manualtask", "bpmn:businessruletask", "bpmn:sendtask",
   "bpmn:receivetask", "bpmn:startevent", "bpmn:endevent",
   "bpmn:intermediatethrowevent", "bpmn:intermediatecatchevent",
   "bpmn:subprocess", "task", "usertask", "servicetask", "startevent",
   "endevent"]

/-- The body of the inner loop of extract_activities: strip and lowercase the
match and append it unless invalid or already collected. -/
def add_activity (acc : List String) (s : String) : List String :=
  let n := norm_name s
  if is_valid_name n && !(acc.contains n) then acc ++ [n] else acc

/-- BpmnQueryExtractor.extract_activities: every pattern is processed (no
break), accumulating into one list with first-occurrence de-duplication. -/
def extract_activities (d : Diagram) : List String :=
  activity_patterns.foldl (fun acc pat => (findall_name_attr pat d).foldl add_activity acc) []

/-- BpmnQueryExtractor.extract_semantic_terms: participants are inserted at
position 0 one by one, then lanes are inserted at position 0 one by one, then
activities are appended. -/
def extract_semantic_terms (d : Diagram) : List String :=
  let participants := extract_participants d
  let lanes := extract_lanes d
  let activities := extract_activities d
  let after_participants := participants.foldl (fun acc p => p :: acc) []
  let after_lanes := lanes.foldl (fun acc l => l :: acc) after_participants
  after_lanes ++ activities

/-- BpmnQueryExtractor.can_process: the raw text contains the XML declaration
marker and a BPMN marker. -/
def bpmn_can_process (d : Diagram) : Bool :=
  strContains d.raw "<?xml" &&
    (strContains d.raw "<bpmn:" || strContains d.raw "<definitions")

/-- PnmlQueryExtractor.can_process: non-empty raw text containing the XML
declaration marker and the pnml marker. -/
def pnml_can_process (d : Diagram) : Bool :=
  if d.raw = "" then false
  else strContains d.raw "<?xml" && strContains d.raw "<pnml"

/-- PnmlQueryExtractor.extract_terms: first every text body nested under a
name element, stripped, in document order; then every (truthy) name attribute
value, stripped. -/
def pnml_extract_terms (d : Diagram) : List String :=
  (d.elements.flatMap (fun e => e.nameTexts.map pyStrip)) ++
    (d.elements.filterMap (fun e =>
      match e.nameAttr with
      | some a => if a = "" then none else some (pyStrip a)
      | none => none))

/-- ASCII lowercase letter, the character class of the technical-id regexes
(they run on the already lowercased term). -/
def isAsciiLower (c : Char) : Bool :=
  decide ('a' ≤ c) && decide (c ≤ 'z')

/-- The regex letter-then-digits (skips p1, t3 and similar technical ids). -/
def matches_alpha_digits : List Char → Bool
  | c :: rest => isAsciiLower c && !rest.isEmpty && rest.all Char.isDigit
  | [] => false

/-- A fixed letter then digits (the coordinate regexes x-digits, y-digits). -/
def matches_letter_digits (letter : Char) : List Char → Bool
  | c :: rest => c == letter && !rest.isEmpty && rest.all Char.isDigit
  | [] => false

/-- Consume a non-empty run of digits, returning the remainder. -/
def take_digits1 (l : List Char) : Option (List Char) :=
  let ds := l.takeWhile Char.isDigit
  if ds.isEmpty then none else some (l.drop ds.length)

/-- The regex letter, digits, literal underscore o p underscore, digits
(skips t4_op_1 and similar operator ids). -/
def matches_id_op_pattern : List Char → Bool
  | c :: rest =>
    isAsciiLower c &&
      (match take_digits1 rest with
       | none => false
       | some r1 =>
         match r1 with
         | '_' :: 'o' :: 'p' :: '_' :: r2 => !r2.isEmpty && r2.all Char.isDigit
         | _ => false)
  | [] => false

/-- Split a character stream into maximal whitespace-free words. -/
def words_aux : List Char → List Char → List String
  | [], acc => if acc.isEmpty then [] else [⟨acc.reverse⟩]
  | c :: rest, acc =>
    if c.isWhitespace then
      if acc.isEmpty then words_aux rest [] else ⟨acc.reverse⟩ :: words_aux rest []
    else words_aux rest (c :: acc)

/-- The whitespace-separated words of a string. -/
def py_words (s : String) : List String :=
  words_aux s.data []

/-- The cleanup applied to a surviving PNML term: angle brackets and hyphens
become spaces, whitespace runs collapse to one space, ends stripped. -/
def clean_pnml_text (s : String) : String :=
  let replaced : List Char := s.data.map (fun c =>
    if c == '<' || c == '>' || c == '-' then ' ' else c)
  pyJoin " " (py_words ⟨replaced⟩)

/-- PnmlQueryExtractor.filter_technical_terms: strip and lowercase each term,
drop empty, single-character, numeric, tag-like, noid, technical-id and
coordinate shaped tokens, and clean the survivors. -/
def pnml_filter_technical_terms (text_matches : List String) : List String :=
  text_matches.filterMap (fun text =>
    let c := pyLower (pyStrip text)
    if !c.data.isEmpty && decide (1 < c.data.length)
        && !pyIsDigit c
        && !strStartsWith c "<"
        && !(c == "noid")
        && !(!c.data.isEmpty && c.data.all Char.isDigit)
        && !matches_alpha_digits c.data
        && !matches_id_op_pattern c.data
        && !matches_letter_digits 'x' c.data
        && !matches_letter_digits 'y' c.data
    then some (clean_pnml_text c) else none)

/-- The PNML structural and boilerplate vocabulary of filter_structural_terms. -/
def pnml_structural_terms : List String :=
  ["place", "transition", "arc", "token", "start", "end", "split", "join",
   "and", "xor", "http", "www", "org", "berlin", "hu", "op", "woped",
   "designer", "version"]

/-- PnmlQueryExtractor.filter_structural_terms: drop every keyword that
contains any structural term as a substring (of its lowercased form). -/
def pnml_filter_structural_terms (keywords : List String) : List String :=
  keywords.filter (fun k =>
    !(pnml_structural_terms.any (fun t => strContains (pyLower k) t)))

/-- An extractor as QueryExtractionService consumes it: format detection, the
type tag, and the extract_semantic_terms method the service calls (which may
raise). -/
structure Extractor where
  can_process : Diagram → Bool
  get_diagram_type : String
  extract_semantic_terms_m : Diagram → Except PyErr (List String)

/-- The BPMN extractor: all called methods exist in the source. -/
def bpmnExtractor : Extractor :=
  { can_process := bpmn_can_process
    get_diagram_type := "BPMN"
    extract_semantic_terms_m := fun d => .ok (extract_semantic_terms d) }

/-- The PNML extractor as the source defines it: can_process and the
extract_terms / filter pipeline exist, but the class defines no
extract_semantic_terms method, so the attribute lookup performed by
QueryExtractionService.extract_query raises AttributeError. -/
def pnmlExtractor : Extractor :=
  { can_process := pnml_can_process
    get_diagram_type := "PNML"
    extract_semantic_terms_m := fun _ => .error PyErr.attributeError }

/-- The extractor registration order of ServiceConfig.create_application_service:
BPMN first, then PNML. -/
def service_extractors : List Extractor :=
  [bpmnExtractor, pnmlExtractor]

/-- The structural vocabulary excluded by
QueryExtractionService.optimize_keywords (exact matches only). -/
def structural_terms : List String :=
  ["and", "xor", "split", "join", "start", "end", "gateway", "transition",
   "place", "fork", "merge"]

/-- QueryExtractionService.optimize_keywords: split the keywords, in order,
into those kept (no weighting is applied) and the excluded structural terms. -/
def optimize_keywords (keywords : List String) : List String × List String :=
  (keywords.filter (fun k => !(structural_terms.contains k)),
   keywords.filter (fun k => structural_terms.contains k))

/-- QueryExtractionService.find_extractor: linear scan, first match wins. -/
def find_extractor (extractors : List Extractor) (d : Diagram) : Option Extractor :=
  extractors.find? (fun ex => ex.can_process d)

/-- QueryExtractionService.extract_query: the first extractor whose
can_process accepts the diagram supplies the keywords, which are optimized and
joined with single spaces; with no matching extractor the diagram text itself
is returned.  An exception raised while extracting propagates. -/
def extract_query (extractors : List Extractor) (d : Diagram) : Except PyErr String :=
  match find_extractor extractors d with
  | some ex =>
    match ex.extract_semantic_terms_m d with
    | .error e => .error e
    | .ok search_keywords => .ok (pyJoin " " (optimize_keywords search_keywords).1)
  | none => .ok d.raw

/-- Append a name unless already collected (first-occurrence keeping). -/
def dedup_step (acc : List String) (n : String) : List String :=
  if acc.contains n then acc else acc ++ [n]

/-- First-occurrence de-duplication, the accumulation discipline of
extract_activities stated on its own. -/
def dedup_first (l : List String) : List String :=
  l.foldl dedup_step []

/-- The activity list in pattern-major order: for each activity pattern in
the fixed source order, its matches in document order, normalised, validity
filtered, then de-duplicated keeping first occurrences.  Proved equal to
extract_activities. -/
def activities_by_pattern (d : Diagram) : List String :=
  dedup_first (((activity_patterns.flatMap
    (fun pat => (findall_name_attr pat d).map norm_name))).filter is_valid_name)

/-- The PNML scenario diagram of the spec: text labels loan application
received, noID and 123. -/
def c5_pnml_diagram : Diagram :=
  { raw := "<?xml version=\"1.0\" encoding=\"UTF-8\"?><pnml><net><place id=\"p1\"><name><text>loan application received</text></name></place><transition id=\"t3\"><name><text>noID</text></name></transition><place id=\"p3\"><name><text>123</text></name></place></net></pnml>"
    elements := [{ tag := "place", nameTexts := ["loan application received"] },
                 { tag := "transition", nameTexts := ["noID"] },
                 { tag := "place", nameTexts := ["123"] }] }

/-- A plain-text input that no extractor accepts. -/
def c7_plain : Diagram :=
  { raw := "This is plain text, not a diagram" }

/-- The BPMN scenario diagram of the spec: one participant, one task, written
in the non-namespaced form the scenario quotes. -/
def c8_bpmn_diagram : Diagram :=
  { raw := "<?xml version=\"1.0\" encoding=\"UTF-8\"?><definitions><participant name=\"Bank Customer\"/><task name=\"Review Application Documents\"/></definitions>"
    elements := [{ tag := "participant", nameAttr := some "Bank Customer" },
                 { tag := "task", nameAttr := some "Review Application Documents" }] }

/-- The scenario diagram with one additional participant written in the
namespaced form: the first participant pattern then wins and the
non-namespaced Bank Customer participant is dropped. -/
def c8_mixed_diagram : Diagram :=
  { raw := "<?xml version=\"1.0\"?><definitions><bpmn:participant name=\"Loan Officer\"/><participant name=\"Bank Customer\"/><task name=\"Review Application Documents\"/></definitions>"
    elements := [{ tag := "bpmn:participant", nameAttr := some "Loan Officer" },
                 { tag := "participant", nameAttr := some "Bank Customer" },
                 { tag := "task", nameAttr := some "Review Application Documents" }] }

/-- A diagram whose first activity in document order is a userTask and whose
second is a task: the task pattern is scanned first. -/
def c10_diagram : Diagram :=
  { raw := "<?xml version=\"1.0\"?><definitions><bpmn:userTask name=\"Alpha One\"/><bpmn:task name=\"Beta Two\"/></definitions>"
    elements := [{ tag := "bpmn:userTask", nameAttr := some "Alpha One" },
                 { tag := "bpmn:task", nameAttr := some "Beta Two" }] }

/-- The retrieval scenario of the spec: candidate distances 0.3, 2.5, 30.0. -/
def c1_candidates : List (StoreDoc × ℚ) :=
  [({ id := some "doc1", page_content := some "alpha" }, mkRat 3 10),
   ({ id := some "doc2", page_content := some "beta" }, mkRat 5 2),
   ({ id := some "doc3", page_content := some "gamma" }, 30)]

/-- A one-document index used to exercise the deletion validation. -/
def c2_index : List Doc :=
  [{ id := "doc_1", text := "alpha" }]

/-- A chunk of the source doc, a chunk of the distinct source doc2, and an
unrelated chunk. -/
def c9_doc1 : Doc := { id := "doc_1", text := "first source" }

/-- The doc2 chunk whose id merely begins with the other prefix. -/
def c9_doc2 : Doc := { id := "doc2_1", text := "second source" }

/-- A chunk not matching the prefix at all. -/
def c9_other : Doc := { id := "report_1", text := "third source" }

/-- An index holding chunks of both sources plus an unrelated chunk. -/
def c9_index : List Doc := [c9_doc1, c9_doc2, c9_other]

/-- A concrete prompt template mirroring the ChatPromptTemplate configured in
ServiceConfig: prompt, instruction and context slots in a fixed frame. -/
def c3_template (prompt instr ctx : String) : Except PyErr String :=
  .ok (prompt ++ "\n\n" ++ instr ++ "\n\nKontext:\n" ++ ctx ++ "\n\nAntwort:")

/-- A store document used by the retrieval counterexamples. -/
def c4_store_doc : StoreDoc := { id := some "doc1", page_content := some "alpha" }

/-- A vector store answering every query with one close candidate. -/
def c4_store : String → Except PyErr (List (StoreDoc × ℚ)) :=
  fun _ => .ok [(c4_store_doc, 1)]

/-- A vector store answering every query with one far-away candidate. -/
def c4_far_store : String → Except PyErr (List (StoreDoc × ℚ)) :=
  fun _ => .ok [(c4_store_doc, 30)]

/- ===================  theorems  =================== -/

/-- C1: for every query, search_docs returns only pairs with distance
strictly below the configured threshold, in ascending distance order, and
with at most the configured result count of entries, assuming the vector
store hands back its candidates sorted ascending by distance (and, per the
similarity_search_with_score contract, at most k = results_count of them). -/
theorem search_docs_threshold_order_cap (results : List (StoreDoc × ℚ)) (threshold : ℤ)
    (results_count : ℕ)
    (hsorted : results.Pairwise (fun a b => a.2 ≤ b.2))
    (hcap : results.length ≤ results_count) :
    (∀ p ∈ search_docs threshold results, p.2 < (threshold : ℚ))
    ∧ (search_docs threshold results).Pairwise (fun a b => a.2 ≤ b.2)
    ∧ (search_docs threshold results).length ≤ results_count := by
  refine ⟨?_, ?_, ?_⟩
  · intro p hp
    unfold search_docs at hp
    simp only [List.mem_map, List.mem_filter] at hp
    obtain ⟨r, ⟨hr, hlt⟩, rfl⟩ := hp
    exact of_decide_eq_true hlt
  · unfold search_docs
    rw [List.pairwise_map]
    exact List.Pairwise.sublist (List.filter_sublist _) hsorted
  · calc (search_docs threshold results).length
        = (results.filter (fun r => decide (r.2 < (threshold : ℚ)))).length := by
          unfold search_docs; rw [List.length_map]
      _ ≤ results.length := List.length_filter_le _ _
      _ ≤ results_count := hcap

/-- C1 witness: the spec scenario with threshold 25 and result count 3; only
the distances 0.3 and 2.5 survive, in that order. -/
theorem search_docs_threshold_order_cap_witness :
    ((search_docs 25 c1_candidates).map (fun p => p.2) = [mkRat 3 10, mkRat 5 2])
    ∧ ((∀ p ∈ search_docs 25 c1_candidates, p.2 < ((25 : ℤ) : ℚ))
        ∧ (search_docs 25 c1_candidates).Pairwise (fun a b => a.2 ≤ b.2)
        ∧ (search_docs 25 c1_candidates).length ≤ 3) :=
  ⟨by decide, search_docs_threshold_order_cap c1_candidates 25 3 (by decide) (by decide)⟩

/-- C2: a None, empty or whitespace-only prefix makes
DatabaseService.delete_by_prefix raise the validation error before the port
is called, and the stored index is left unchanged. -/
theorem delete_blank_prefix_rejected (pfx : Option String) (index : List Doc)
    (h : pfx = none ∨ ∃ p, pfx = some p ∧ pyStrip p = "") :
    delete_by_prefix_service pfx index = .error "Prefix cannot be empty"
    ∧ delete_by_prefix_service_run pfx index = index := by
  have herr : delete_by_prefix_service pfx index = .error "Prefix cannot be empty" := by
    rcases h with h | ⟨p, hp, hblank⟩
    · rw [h]; rfl
    · rw [hp]
      simp only [delete_by_prefix_service]
      rw [if_pos (Or.inr hblank)]
  refine ⟨herr, ?_⟩
  unfold delete_by_prefix_service_run
  rw [herr]

/-- C2 witness: the whitespace-only prefix on a concrete index. -/
theorem delete_blank_prefix_rejected_witness :
    delete_by_prefix_service (some "  ") c2_index = .error "Prefix cannot be empty"
    ∧ delete_by_prefix_service_run (some "  ") c2_index = c2_index :=
  delete_blank_prefix_rejected (some "  ") c2_index (Or.inr ⟨"  ", rfl, by decide⟩)

/-- C9: prefix-scoped deletion is a plain startswith match on the document
id, with no delimiter awareness: the client deletion keeps exactly the
documents whose id does not begin with the prefix (and the PDFService copy of
the routine is the same function); deleting prefix doc also removes the doc2
chunk. -/
theorem delete_matches_plain_startswith :
    (∀ (p : String) (index : List Doc),
        delete_by_prefix_client p index
          = index.filter (fun d => !(strStartsWith d.id p)))
    ∧ (∀ (p : String) (index : List Doc),
        delete_old_docs_by_prefix_pdf p index = delete_by_prefix_client p index)
    ∧ delete_by_prefix_client "doc" c9_index = [c9_other] := by
  refine ⟨?_, fun p index => rfl, by decide⟩
  intro p index
  unfold delete_by_prefix_client
  by_cases h : ((index.map (fun d => d.id)).filter (fun i => strStartsWith i p)).isEmpty
  · rw [if_pos h]
    rw [List.isEmpty_iff] at h
    rw [List.filter_eq_nil_iff] at h
    have hall : ∀ d ∈ index, (!(strStartsWith d.id p)) = true := by
      intro d hd
      have := h d.id (List.mem_map_of_mem (fun x => x.id) hd)
      simpa using this
    exact (List.filter_eq_self.mpr hall).symm
  · rw [if_neg h]
    apply List.filter_congr
    intro d hd
    have hmem : d.id ∈ index.map (fun x => x.id) := List.mem_map_of_mem (fun x => x.id) hd
    have hiff : (d.id ∈ (index.map (fun x => x.id)).filter (fun i => strStartsWith i p))
        ↔ strStartsWith d.id p = true := by
      rw [List.mem_filter]
      exact ⟨fun hx => hx.2, fun hx => ⟨hmem, hx⟩⟩
    show (!(List.contains _ d.id)) = _
    rw [List.contains, List.elem_eq_mem]
    by_cases hs : strStartsWith d.id p
    · simp [hs, hiff.mpr hs]
    · have hnot : ¬ (d.id ∈ (index.map (fun x => x.id)).filter (fun i => strStartsWith i p)) :=
        fun hmem2 => hs (hiff.mp hmem2)
      simp [hs, hnot]

/-- C3 counterexample: a state with empty context and prompt Test prompt is
not returned unchanged by augment (no template configured, instruction set),
refuting the byte-for-byte identity claim. -/
theorem augment_empty_context_counterexample :
    augment none (some "Be precise") { prompt := "Test prompt" } ≠ "Test prompt" := by
  decide

/-- C3 amended: for every request state with empty context, augment does not
skip enrichment: with no template configured it returns exactly
prompt NL NL instruction NL NL Context: NL — the prompt embedded in the
deterministic fallback with an empty context block, never the bare prompt —
and with any configured template it applies the template to the prompt, the
instruction and the empty context string, falling back to the same
concatenation when the template raises. -/
theorem augment_empty_context_format (instr : Option String) (state : State)
    (h : state.context = []) :
    (augment none instr state
        = state.prompt ++ "\n\n" ++ py_render_opt instr ++ "\n\nContext:\n"
      ∧ augment none instr state ≠ state.prompt)
    ∧ ∀ tmpl : String → String → String → Except PyErr String,
        augment (some tmpl) instr state
          = match tmpl state.prompt (py_render_opt instr) "" with
            | .ok enriched => enriched
            | .error _ =>
                state.prompt ++ "\n\n" ++ py_render_opt instr ++ "\n\nContext:\n" := by
  have hfall : augment none instr state
      = state.prompt ++ "\n\n" ++ py_render_opt instr ++ "\n\nContext:\n" := by
    simp [augment, augment_context_text, h]
  refine ⟨⟨hfall, ?_⟩, ?_⟩
  · intro heq
    rw [hfall] at heq
    have hlen := congrArg String.length heq
    have h2 : ("\n\n" : String).length = 2 := rfl
    have h11 : ("\n\nContext:\n" : String).length = 11 := rfl
    simp [String.length_append, h2, h11] at hlen
    omega
  · intro tmpl
    simp [augment, augment_context_text, h]

/-- C3 amended witness: the concrete empty-context state, with no template
and with the ServiceConfig-style template. -/
theorem augment_empty_context_format_witness :
    (augment none (some "Be precise") { prompt := "Test prompt" }
        = "Test prompt" ++ "\n\n" ++ py_render_opt (some "Be precise") ++ "\n\nContext:\n"
      ∧ augment none (some "Be precise") { prompt := "Test prompt" } ≠ "Test prompt")
    ∧ augment (some c3_template) (some "Be precise") { prompt := "Test prompt" }
        = match c3_template "Test prompt" (py_render_opt (some "Be precise")) "" with
          | .ok enriched => enriched
          | .error _ =>
              "Test prompt" ++ "\n\n" ++ py_render_opt (some "Be precise") ++ "\n\nContext:\n" :=
  ⟨(augment_empty_context_format (some "Be precise") { prompt := "Test prompt" } rfl).1,
   (augment_empty_context_format (some "Be precise") { prompt := "Test prompt" } rfl).2
     c3_template⟩

/-- C4 counterexample: the empty query is handed to the vector store like any
other; with a candidate inside the threshold the result is non-empty, so
retrieve neither short-circuits to an empty result nor avoids the store. -/
theorem retrieve_empty_query_counterexample :
    retrieve c4_store 25 "" = .ok [(store_doc_to_dto c4_store_doc, 1)]
    ∧ [(store_doc_to_dto c4_store_doc, (1 : ℚ))] ≠ [] :=
  ⟨rfl, by decide⟩

/-- C4 amended: retrieve treats an empty or whitespace-only query exactly as
any other: the store is consulted and the threshold filter applied, so the
result is empty precisely when no returned candidate lies strictly below the
threshold. -/
theorem retrieve_whitespace_query (store : String → Except PyErr (List (StoreDoc × ℚ)))
    (threshold : ℤ) (q : String) (cands : List (StoreDoc × ℚ))
    (_hq : pyStrip q = "")
    (hstore : store q = .ok cands) :
    retrieve store threshold q = .ok (search_docs threshold cands)
    ∧ (search_docs threshold cands = [] ↔ ∀ p ∈ cands, ¬(p.2 < (threshold : ℚ))) := by
  constructor
  · unfold retrieve search_docs_run
    rw [hstore]
  · unfold search_docs
    rw [List.map_eq_nil_iff, List.filter_eq_nil_iff]
    constructor
    · intro hall p hp
      have := hall p hp
      simpa using this
    · intro hall p hp
      simpa using hall p hp

/-- C4 amended witness: the single-space query against a store whose only
candidate is outside the threshold. -/
theorem retrieve_whitespace_query_witness :
    retrieve c4_far_store 25 " " = .ok (search_docs 25 [(c4_store_doc, 30)])
    ∧ (search_docs 25 [(c4_store_doc, 30)] = []
        ↔ ∀ p ∈ [(c4_store_doc, (30 : ℚ))], ¬(p.2 < ((25 : ℤ) : ℚ))) :=
  retrieve_whitespace_query c4_far_store 25 " " [(c4_store_doc, 30)] (by decide) rfl

/-- C6 counterexample: a vector-store outage during enrich_prompt is masked:
the caller receives the bare question back instead of an error. -/
theorem enrich_prompt_masks_error_counterexample :
    enrich_prompt (.error (PyErr.error "vector store down")) "what is a petri net"
      (fun _ _ => .ok ["enriched"]) = "what is a petri net" := rfl

/-- C6 amended: LangchainClient.search_docs and RAGAdapter.retrieve propagate
a vector-store failure unchanged to their caller, but
RAGService.enrich_prompt catches every search failure and returns the bare
question, masking the outage on that path. -/
theorem retrieval_error_propagation (e : PyErr) (threshold : ℤ) (q question : String)
    (store : String → Except PyErr (List (StoreDoc × ℚ)))
    (fmt : String → String → Except PyErr (List String))
    (hstore : store q = .error e) :
    retrieve store threshold q = .error e
    ∧ search_docs_run threshold (store q) = .error e
    ∧ enrich_prompt (.error e) question fmt = question := by
  refine ⟨?_, ?_, rfl⟩
  · unfold retrieve search_docs_run
    rw [hstore]
  · unfold search_docs_run
    rw [hstore]

/-- C6 amended witness: a concrete outage, query and formatter. -/
theorem retrieval_error_propagation_witness :
    retrieve (fun _ => .error (PyErr.error "boom")) 25 "loan process"
      = .error (PyErr.error "boom")
    ∧ search_docs_run 25 ((fun (_ : String) => Except.error (ε := PyErr)
        (α := List (StoreDoc × ℚ)) (PyErr.error "boom")) "loan process")
      = .error (PyErr.error "boom")
    ∧ enrich_prompt (.error (PyErr.error "boom")) "loan process"
        (fun _ _ => .ok ["enriched"]) = "loan process" :=
  retrieval_error_propagation (PyErr.error "boom") 25 "loan process" "loan process"
    (fun _ => .error (PyErr.error "boom")) (fun _ _ => .ok ["enriched"]) rfl

/-- C7: when no registered extractor accepts the diagram, extract_query
returns the diagram text itself (identity fallback). -/
theorem extract_query_identity_fallback (extractors : List Extractor) (d : Diagram)
    (h : ∀ ex ∈ extractors, ex.can_process d = false) :
    extract_query extractors d = .ok d.raw := by
  unfold extract_query find_extractor
  have hnone : extractors.find? (fun ex => ex.can_process d) = none := by
    rw [List.find?_eq_none]
    intro ex hex
    simp [h ex hex]
  rw [hnone]

/-- C7 witness: plain text is rejected by both registered extractors and
comes back unchanged. -/
theorem extract_query_identity_fallback_witness :
    extract_query service_extractors c7_plain = .ok c7_plain.raw :=
  extract_query_identity_fallback service_extractors c7_plain (by decide)

/-- C5: the PNML scenario diagram is accepted by the PNML extractor, but
extract_query raises AttributeError on it, because the service calls
extract_semantic_terms and PnmlQueryExtractor defines no such method; the
extractTerms, filterTechnicalTerms, filterStructuralTerms composition the
claim describes does exist in the source and, joined with single spaces,
yields exactly loan application received on this input (excluding noid and
123), which is what the repository integration test expects of
extract_query. -/
theorem extract_query_pnml_raises_attribute_error :
    pnml_can_process c5_pnml_diagram = true
    ∧ extract_query service_extractors c5_pnml_diagram = .error PyErr.attributeError
    ∧ pyJoin " " (pnml_filter_structural_terms (pnml_filter_technical_terms
        (pnml_extract_terms c5_pnml_diagram))) = "loan application received" := by
  set_option maxRecDepth 100000 in refine ⟨rfl, rfl, rfl⟩

/-- Inserting each element of a list at the head in turn reverses it. -/
theorem foldl_cons_reverse (l acc : List String) :
    l.foldl (fun acc x => x :: acc) acc = l.reverse ++ acc := by
  induction l generalizing acc with
  | nil => simp
  | cons x t ih => simp [List.foldl_cons, ih]

/-- The keyword list assembled by extract_semantic_terms is the reversed
lanes, then the reversed participants, then the activities. -/
theorem extract_semantic_terms_eq (d : Diagram) :
    extract_semantic_terms d
      = ((extract_lanes d).reverse ++ (extract_participants d).reverse)
          ++ extract_activities d := by
  unfold extract_semantic_terms
  simp only [foldl_cons_reverse, List.append_nil]

/-- The activity accumulation over one match list agrees with normalising,
validity-filtering and first-occurrence collection. -/
theorem foldl_add_activity_eq (l : List String) (acc : List String) :
    l.foldl add_activity acc
      = ((l.map norm_name).filter is_valid_name).foldl dedup_step acc := by
  induction l generalizing acc with
  | nil => rfl
  | cons s t ih =>
    rw [List.foldl_cons, List.map_cons]
    by_cases hv : is_valid_name (norm_name s)
    · rw [List.filter_cons_of_pos hv, List.foldl_cons]
      have hstep : add_activity acc s = dedup_step acc (norm_name s) := by
        unfold add_activity dedup_step
        by_cases hc : acc.contains (norm_name s)
        · simp [hv, hc]
        · simp [hv, hc]
      rw [hstep, ih]
    · rw [List.filter_cons_of_neg hv]
      have hskip : add_activity acc s = acc := by
        unfold add_activity
        simp [hv]
      rw [hskip, ih]

/-- The nested pattern loop of extract_activities agrees with flattening the
per-pattern matches first. -/
theorem foldl_patterns_eq (d : Diagram) (pats : List String) (acc : List String) :
    pats.foldl (fun acc pat => (findall_name_attr pat d).foldl add_activity acc) acc
      = (((pats.flatMap (fun pat => (findall_name_attr pat d).map norm_name))).filter
          is_valid_name).foldl dedup_step acc := by
  induction pats generalizing acc with
  | nil => rfl
  | cons p t ih =>
    rw [List.foldl_cons, ih, List.flatMap_cons, List.filter_append, List.foldl_append,
      foldl_add_activity_eq]

/-- C10 counterexample: a userTask precedes a task in document order, yet the
task pattern is scanned first, so the extracted activities come out in the
reverse of document order. -/
theorem bpmn_activities_not_document_order :
    c10_diagram.elements.map (fun e => e.nameAttr) = [some "Alpha One", some "Beta Two"]
    ∧ extract_activities c10_diagram = ["beta two", "alpha one"] := by
  refine ⟨rfl, ?_⟩
  set_option maxRecDepth 100000 in rfl

/-- C10 amended: the BPMN term sequence is lane names first (in reverse
document order), then participant names (in reverse document order), then the
activities collected pattern-major: for each activity pattern in the fixed
source order, its matches in document order, normalised, validity-filtered,
de-duplicated case-insensitively by keeping first occurrences (the
lowercasing makes the de-duplication case-insensitive); activities are not
globally in document order. -/
theorem bpmn_term_ordering (d : Diagram) :
    extract_semantic_terms d
      = ((extract_lanes d).reverse ++ (extract_participants d).reverse)
          ++ extract_activities d
    ∧ extract_activities d = activities_by_pattern d := by
  refine ⟨extract_semantic_terms_eq d, ?_⟩
  unfold extract_activities activities_by_pattern dedup_first
  rw [foldl_patterns_eq]

/-- pyJoin over a two-or-more element list peels off the head. -/
theorem pyJoin_cons_of_ne (sep x : String) (r : List String) (hr : r ≠ []) :
    pyJoin sep (x :: r) = x ++ sep ++ pyJoin sep r := by
  cases r with
  | nil => exact absurd rfl hr
  | cons y t => rfl

/-- Every member of the joined list occurs inside the join. -/
theorem pyJoin_mem_split (sep x : String) (l : List String) (h : x ∈ l) :
    ∃ a b, pyJoin sep l = a ++ (x ++ b) := by
  induction l with
  | nil => cases h
  | cons y t ih =>
    rcases List.mem_cons.mp h with rfl | hx
    · cases t with
      | nil =>
        refine ⟨"", "", ?_⟩
        show x = "" ++ (x ++ "")
        rw [String.empty_append, String.append_empty]
      | cons z r =>
        refine ⟨"", sep ++ pyJoin sep (z :: r), ?_⟩
        show x ++ sep ++ pyJoin sep (z :: r) = "" ++ (x ++ (sep ++ pyJoin sep (z :: r)))
        rw [String.empty_append, String.append_assoc]
    · obtain ⟨a, b, hab⟩ := ih hx
      have ht : t ≠ [] := List.ne_nil_of_mem hx
      rw [pyJoin_cons_of_ne sep y t ht, hab]
      refine ⟨y ++ sep ++ a, b, ?_⟩
      rw [String.append_assoc (y ++ sep) a (x ++ b), String.append_assoc]

/-- Joining a list with a non-empty tail part ends in the join of the tail. -/
theorem pyJoin_append_tail (sep : String) (p r : List String) (hr : r ≠ []) :
    ∃ a, pyJoin sep (p ++ r) = a ++ pyJoin sep r := by
  induction p with
  | nil =>
    refine ⟨"", ?_⟩
    rw [List.nil_append, String.empty_append]
  | cons y t ih =>
    obtain ⟨a, ha⟩ := ih
    have hne : t ++ r ≠ [] := by
      intro hcon
      rw [List.append_eq_nil] at hcon
      exact hr hcon.2
    rw [List.cons_append, pyJoin_cons_of_ne sep y (t ++ r) hne, ha]
    refine ⟨y ++ sep ++ a, ?_⟩
    rw [String.append_assoc (y ++ sep) a (pyJoin sep r)]

/-- A member of the first part of a joined concatenation occurs before any
member of the second part. -/
theorem pyJoin_ordered (sep x y : String) (l₁ l₂ : List String)
    (hx : x ∈ l₁) (hy : y ∈ l₂) :
    ∃ a b c, pyJoin sep (l₁ ++ l₂) = a ++ (x ++ (b ++ (y ++ c))) := by
  obtain ⟨p, q, rfl⟩ := List.append_of_mem hx
  have hyq : y ∈ q ++ l₂ := List.mem_append_right q hy
  have hne : q ++ l₂ ≠ [] := List.ne_nil_of_mem hyq
  have h1 : (p ++ x :: q) ++ l₂ = p ++ (x :: (q ++ l₂)) := by simp
  obtain ⟨a, ha⟩ := pyJoin_append_tail sep p (x :: (q ++ l₂)) (by simp)
  obtain ⟨b, c, hbc⟩ := pyJoin_mem_split sep y (q ++ l₂) hyq
  refine ⟨a, sep ++ b, c, ?_⟩
  rw [h1, ha, pyJoin_cons_of_ne sep x (q ++ l₂) hne, hbc]
  rw [String.append_assoc x sep (b ++ (y ++ c)), String.append_assoc sep b (y ++ c)]

/-- add_activity never removes a collected name. -/
theorem add_activity_mono (acc : List String) (s a : String) (h : a ∈ acc) :
    a ∈ add_activity acc s := by
  unfold add_activity
  by_cases hc : is_valid_name (norm_name s) && !(acc.contains (norm_name s))
  · rw [if_pos hc]
    exact List.mem_append_left _ h
  · rw [if_neg hc]
    exact h

/-- The activity accumulation never removes a collected name. -/
theorem foldl_add_activity_mono (l : List String) (acc : List String) (a : String)
    (h : a ∈ acc) : a ∈ l.foldl add_activity acc := by
  induction l generalizing acc with
  | nil => exact h
  | cons s t ih => exact ih _ (add_activity_mono acc s a h)

/-- A valid name among the matches ends up in the accumulated list. -/
theorem foldl_add_activity_mem (l : List String) (acc : List String) (s : String)
    (hs : s ∈ l) (hv : is_valid_name (norm_name s) = true) :
    norm_name s ∈ l.foldl add_activity acc := by
  induction l generalizing acc with
  | nil => cases hs
  | cons x t ih =>
    rcases List.mem_cons.mp hs with rfl | hmem
    · rw [List.foldl_cons]
      apply foldl_add_activity_mono
      unfold add_activity
      cases hcb : acc.contains (norm_name s) with
      | true =>
        have hmemacc : norm_name s ∈ acc := by
          rw [List.contains, List.elem_eq_mem] at hcb
          exact of_decide_eq_true hcb
        simp [hv, hcb, hmemacc]
      | false =>
        have hnmem : norm_name s ∉ acc := by
          rw [List.contains, List.elem_eq_mem] at hcb
          exact of_decide_eq_false hcb
        simp [hv, hcb, hnmem]
    · rw [List.foldl_cons]
      exact ih _ hmem

/-- The pattern loop of extract_activities never removes a collected name. -/
theorem pattern_foldl_mono (d : Diagram) (pats : List String) (acc : List String)
    (a : String) (h : a ∈ acc) :
    a ∈ pats.foldl (fun acc pat => (findall_name_attr pat d).foldl add_activity acc) acc := by
  induction pats generalizing acc with
  | nil => exact h
  | cons p t ih => exact ih _ (foldl_add_activity_mono _ _ _ h)

/-- Any valid match of any pattern in the list ends up in the pattern fold. -/
theorem pattern_foldl_mem (d : Diagram) (pats : List String) (acc : List String)
    (pat s : String) (hp : pat ∈ pats) (hs : s ∈ findall_name_attr pat d)
    (hv : is_valid_name (norm_name s) = true) :
    norm_name s
      ∈ pats.foldl (fun acc pat => (findall_name_attr pat d).foldl add_activity acc) acc := by
  induction pats generalizing acc with
  | nil => cases hp
  | cons p t ih =>
    rcases List.mem_cons.mp hp with rfl | hmem
    · rw [List.foldl_cons]
      exact pattern_foldl_mono d t _ _ (foldl_add_activity_mem _ _ _ hs hv)
    · rw [List.foldl_cons]
      exact ih _ hmem

/-- A valid raw capture survives the shared name post-processing. -/
theorem mem_process_names (raw : List String) (s : String) (hs : s ∈ raw)
    (hv : is_valid_name (norm_name s) = true) :
    norm_name s ∈ process_names raw := by
  unfold process_names
  apply List.mem_filterMap.mpr
  refine ⟨s, hs, ?_⟩
  simp [hv]

/-- C8 counterexample: a diagram that does contain a participant element
named Bank Customer (plus one participant in the namespaced form) and the
task; the first participant pattern wins, the non-namespaced Bank Customer
participant is dropped, and the extracted query does not contain the term
bank customer. -/
theorem bpmn_scenario_counterexample :
    (∃ e ∈ c8_mixed_diagram.elements,
        e.tag = "participant" ∧ e.nameAttr = some "Bank Customer")
    ∧ extract_query service_extractors c8_mixed_diagram
        = .ok "loan officer review application documents"
    ∧ strContains "loan officer review application documents" "bank customer" = false := by
  refine ⟨by decide, ?_, by decide⟩
  set_option maxRecDepth 100000 in rfl

/-- C8 amended: for every BPMN-accepted diagram that contains a participant
element named Bank Customer (in the plain form the scenario quotes) and a
task element named Review Application Documents, and in which no element
matches the first, namespaced participant pattern, the extracted query
contains bank customer and review application documents, with the
participant term occurring before the task term in the assembled string. -/
theorem extract_query_bpmn_participant_before_task (d : Diagram)
    (hacc : bpmn_can_process d = true)
    (hno1 : findall_name_attr "bpmn:participant" d = [])
    (hpart : ∃ e ∈ d.elements, e.tag = "participant" ∧ e.nameAttr = some "Bank Customer")
    (htask : ∃ e ∈ d.elements, e.tag = "task" ∧ e.nameAttr = some "Review Application Documents") :
    ∃ q a b c, extract_query service_extractors d = .ok q
      ∧ q = a ++ ("bank customer" ++ (b ++ ("review application documents" ++ c))) := by
  have hfind : find_extractor service_extractors d = some bpmnExtractor := by
    unfold find_extractor service_extractors
    rw [List.find?_cons_of_pos]
    exact hacc
  obtain ⟨ep, hep, hept, hepa⟩ := hpart
  have hBC : "Bank Customer" ∈ findall_name_attr "participant" d := by
    unfold findall_name_attr
    apply List.mem_filterMap.mpr
    refine ⟨ep, hep, ?_⟩
    rw [hept, hepa]
    decide
  have hBfalse : (findall_name_attr "participant" d).isEmpty = false := by
    rw [List.isEmpty_eq_false]
    exact List.ne_nil_of_mem hBC
  have hfirst : first_nonempty_list
      [findall_name_attr "bpmn:participant" d, findall_name_attr "participant" d,
       findall_participant_rev d] = findall_name_attr "participant" d := by
    simp [first_nonempty_list, hno1, hBfalse]
  have hbank : "bank customer" ∈ extract_participants d := by
    unfold extract_participants
    rw [hfirst]
    have hmem := mem_process_names _ "Bank Customer" hBC (by decide)
    have hn : norm_name "Bank Customer" = "bank customer" := by decide
    rwa [hn] at hmem
  obtain ⟨et, het, hett, heta⟩ := htask
  have hRA : "Review Application Documents" ∈ findall_name_attr "task" d := by
    unfold findall_name_attr
    apply List.mem_filterMap.mpr
    refine ⟨et, het, ?_⟩
    rw [hett, heta]
    decide
  have hrev : "review application documents" ∈ extract_activities d := by
    have hmem := pattern_foldl_mem d activity_patterns [] "task" "Review Application Documents"
      (by decide) hRA (by decide)
    have hn : norm_name "Review Application Documents" = "review application documents" := by
      decide
    rw [hn] at hmem
    exact hmem
  have hbankL : "bank customer"
      ∈ (extract_lanes d).reverse ++ (extract_participants d).reverse :=
    List.mem_append_right _ (List.mem_reverse.mpr hbank)
  have hkw : (optimize_keywords (extract_semantic_terms d)).1
      = ((extract_lanes d).reverse ++ (extract_participants d).reverse).filter
          (fun k => !(structural_terms.contains k))
        ++ (extract_activities d).filter (fun k => !(structural_terms.contains k)) := by
    have h1 : (optimize_keywords (extract_semantic_terms d)).1
        = (extract_semantic_terms d).filter (fun k => !(structural_terms.contains k)) := rfl
    rw [h1, extract_semantic_terms_eq d, List.filter_append]
  have hbankF : "bank customer"
      ∈ ((extract_lanes d).reverse ++ (extract_participants d).reverse).filter
          (fun k => !(structural_terms.contains k)) :=
    List.mem_filter.mpr ⟨hbankL, by decide⟩
  have hrevF : "review application documents"
      ∈ (extract_activities d).filter (fun k => !(structural_terms.contains k)) :=
    List.mem_filter.mpr ⟨hrev, by decide⟩
  obtain ⟨a, b, c, habc⟩ := pyJoin_ordered " " "bank customer"
    "review application documents" _ _ hbankF hrevF
  refine ⟨pyJoin " " (optimize_keywords (extract_semantic_terms d)).1, a, b, c, ?_, ?_⟩
  · unfold extract_query
    rw [hfind]
    rfl
  · rw [hkw]
    exact habc


/-- C8 amended witness: the scenario diagram in the quoted plain form. -/
theorem extract_query_bpmn_participant_before_task_witness :
    ∃ q a b c, extract_query service_extractors c8_bpmn_diagram = .ok q
      ∧ q = a ++ ("bank customer" ++ (b ++ ("review application documents" ++ c))) :=
  extract_query_bpmn_participant_before_task c8_bpmn_diagram
    (by decide) (by decide) (by decide) (by decide)

end WopedRag
